import Mathlib

/-!
Shallow embedding of the snap package provider module
(src/salt/modules/snappkg.py) and its declarative state layer
(src/salt/states/snappkg.py).

The mutable Salt context dictionary is modelled as an explicit state
record `Ctx`; the external process executor, the scoped-execution toggle
and the listing command output are modelled as an oracle `World` indexed
by the number of external invocations performed so far.  Helper
functions of the Salt framework that the module calls through the
loader (pkg_resource.add_pkg, pkg_resource.sort_pkglist,
pkg_resource.stringify, salt.utils.data.compare_dicts,
salt.utils.itertools.split) are embedded from their well-known Salt
semantics, which the specification restates.
-/

/-- A Python value held in an inventory mapping: either a list of
version strings (the versions_as_list form, also the form stored in the
context cache) or a single joined version string (the stringified form). -/
inductive VVal where
  | vl : List String → VVal
  | vs : String → VVal
deriving DecidableEq, Repr

/-- A Python dict from package name to version value, as an association
list in insertion order (keys unique along every code path used here). -/
abbrev PyInv := List (String × VVal)

/-- The list-valued inventory stored in the context cache
(`__context__` entry `snappkg.list_pkgs`). -/
abbrev PkgListInv := List (String × List String)

/-- A ChangeSet entry maps a package name to its (old, new) pair, as
produced by salt.utils.data.compare_dicts. -/
abbrev ChangeSet := List (String × VVal × VVal)

/-- Result of `cmd.run_all`: exit code, stdout, stderr. -/
structure CmdResult where
  retcode : Int
  stdout : String
  stderr : String
deriving DecidableEq, Repr

/-- The external world: output of the k-th listing invocation
(`cmd.run` of snap list), result of the k-th mutating invocation
(`cmd.run_all`), the systemd scope capability
(salt.utils.systemd.has_scope) and the systemd.scope config toggle. -/
structure World where
  listOut : Nat → String
  runOut : Nat → CmdResult
  hasScope : Bool
  scopeCfg : Bool

/-- The mutable execution context: the `__context__` cache entry plus
instrumentation counting external invocations (`nList` listing reads,
`nRun` mutating commands) and the argv log of mutating commands. -/
structure Ctx where
  cache : Option PkgListInv
  nList : Nat
  nRun : Nat
  mutLog : List (List String)
deriving DecidableEq, Repr

/-- Structured payload of a CommandExecutionError raised by
install/remove: the error-message list and the before/after ChangeSet
stored under the changes key (modelled as optional, since the generic
exception type does not require it). -/
structure ErrInfo where
  errors : List String
  changes : Option ChangeSet
deriving DecidableEq, Repr

/-- A Python exception escaping the embedded code: either a
CommandExecutionError (message, optional info payload) or a NameError
on an unbound identifier. -/
inductive PyErr where
  | commandExecution : String → Option ErrInfo → PyErr
  | nameError : String → PyErr
deriving DecidableEq, Repr

/-- Return value of version: either a single scalar value (the
one-concrete-name convenience) or a mapping. -/
inductive VersionResult where
  | single : VVal → VersionResult
  | many : PyInv → VersionResult
deriving DecidableEq, Repr

/-- Decidable equality for Except results, so that concrete runs of
the embedded operations can be checked by evaluation. -/
instance {e a : Type} [DecidableEq e] [DecidableEq a] : DecidableEq (Except e a) :=
  fun x y =>
    match x, y with
    | .ok u, .ok v =>
      if h : u = v then isTrue (by rw [h])
      else isFalse (by intro hc; cases hc; exact h rfl)
    | .error u, .error v =>
      if h : u = v then isTrue (by rw [h])
      else isFalse (by intro hc; cases hc; exact h rfl)
    | .ok _, .error _ => isFalse (by intro hc; cases hc)
    | .error _, .ok _ => isFalse (by intro hc; cases hc)

/-- A value of the changes dict of a state return: either a nested
ChangeSet dict (the value stored under the key installed on success) or
an old/new pair (an entry of the raw ChangeSet taken from an error
payload). -/
inductive ChVal where
  | sub : ChangeSet → ChVal
  | pair : VVal → VVal → ChVal
deriving DecidableEq, Repr

/-- The state-return dict of the state layer:
name, result, changes, comment. -/
structure StateReport where
  name : String
  result : Bool
  changes : List (String × ChVal)
  comment : String
deriving DecidableEq, Repr

/-- Return of list_pkgs: the returned dict value, plus whether the
returned object is the very object stored in the context cache (true
only on the cache-hit versions_as_list branch, which returns the cached
dict itself; every other branch returns a fresh object, obtained by
copy.deepcopy or built locally). -/
structure RetInv where
  val : PyInv
  sharesCache : Bool
deriving DecidableEq, Repr

/-- Python `s.startswith` for a one-character needle: the first
character of the string equals it.  (Implemented over the character
list so that it evaluates inside the kernel.) -/
def startswithChar (s : String) (c : Char) : Bool :=
  match s.toList with
  | [] => false
  | a :: _ => a == c

/-- Python `c in s` membership of one character in a string. -/
def containsChar (s : String) (c : Char) : Bool :=
  s.toList.contains c

/-- Lexicographic string comparison by code point, as the Python
builtin comparison orders strings. -/
def pyStrLeList : List Char → List Char → Bool
  | [], _ => true
  | _ :: _, [] => false
  | a :: as, b :: bs => if a = b then pyStrLeList as bs else decide (a.val < b.val)

/-- `s <= t` on strings (code-point lexicographic). -/
def pyStrLe (s t : String) : Bool :=
  pyStrLeList s.toList t.toList

/-- Split a character list on a separator character, keeping empty
segments, as the Python str.split with an explicit separator does. -/
def splitOnCharAux (sep : Char) : List Char → List Char → List String
  | [], acc => [String.mk acc.reverse]
  | c :: rest, acc =>
    if c = sep then String.mk acc.reverse :: splitOnCharAux sep rest []
    else splitOnCharAux sep rest (c :: acc)

/-- Python `s.split(sep)` for a one-character separator. -/
def splitOnChar (sep : Char) (s : String) : List String :=
  splitOnCharAux sep s.toList []

/-- Dict lookup in a list-valued inventory (first matching key). -/
def dlookupL (pkgs : PkgListInv) (name : String) : Option (List String) :=
  match pkgs with
  | [] => none
  | kv :: rest => if kv.1 == name then some kv.2 else dlookupL rest name

/-- Dict lookup in an PyInv (first matching key). -/
def dlookup (d : PyInv) (k : String) : Option VVal :=
  match d with
  | [] => none
  | kv :: rest => if kv.1 == k then some kv.2 else dlookup rest k

/-- Dict assignment `d[k] = v`: overwrite in place, else append. -/
def dinsert (d : PyInv) (k : String) (v : VVal) : PyInv :=
  match d with
  | [] => [(k, v)]
  | kv :: rest => if kv.1 == k then (k, v) :: rest else kv :: dinsert rest k v

/-- pkg_resource.add_pkg: `pkgs.setdefault(name, []).append(version)` —
append the version to the existing list for the name, else add a new
singleton entry at the end. -/
def add_pkg (pkgs : PkgListInv) (name ver : String) : PkgListInv :=
  match pkgs with
  | [] => [(name, [ver])]
  | kv :: rest =>
    if kv.1 == name then (kv.1, kv.2 ++ [ver]) :: rest
    else kv :: add_pkg rest name ver

/-- Insert a string into a sorted list (ascending). -/
def insertSorted (v : String) : List String → List String
  | [] => [v]
  | x :: xs => if pyStrLe v x then v :: x :: xs else x :: insertSorted v xs

/-- Insertion sort on strings (ascending), the order used by the Python
builtin sorted. -/
def sortStrings : List String → List String
  | [] => []
  | x :: xs => insertSorted x (sortStrings xs)

/-- Python `sorted(set(l))`: distinct elements in ascending order. -/
def sortedDedup (l : List String) : List String :=
  sortStrings l.dedup

/-- pkg_resource.sort_pkglist: replace each version list by
`sorted(set(versions))`. -/
def sort_pkglist (pkgs : PkgListInv) : PkgListInv :=
  pkgs.map fun kv => (kv.1, sortedDedup kv.2)

/-- pkg_resource.stringify applied to one value: a version list becomes
the comma-joined string; a string value would be comma-joined over its
characters (this module never reaches that case). -/
def stringifyVal : VVal → VVal
  | .vl l => .vs (String.intercalate "," l)
  | .vs t => .vs (String.intercalate "," (t.toList.map fun c => String.mk [c]))

/-- pkg_resource.stringify over a whole dict. -/
def stringifyInv (d : PyInv) : PyInv :=
  d.map fun kv => (kv.1, stringifyVal kv.2)

/-- View the cached list-valued inventory as the dict returned on the
versions_as_list branch. -/
def asListInv (c : PkgListInv) : PyInv :=
  c.map fun kv => (kv.1, VVal.vl kv.2)

/-- View the cached list-valued inventory as its stringified deep copy
(the not-versions_as_list return shape). -/
def asStrInv (c : PkgListInv) : PyInv :=
  c.map fun kv => (kv.1, VVal.vs (String.intercalate "," kv.2))

/-- Python whitespace class of the regex \s (newline excluded here
because the text is already split into lines). -/
def isPyWs (c : Char) : Bool :=
  c = ' ' || c = '\t' || c = '\n' || c = '\r' || c = '\x0b' || c = '\x0c'

/-- Collapse every maximal whitespace run into a single space, as
`re.sub` of the pattern \s+ with a space does; the flag records whether
the previous character was whitespace. -/
def compressAux : Bool → List Char → List Char
  | _, [] => []
  | prevWs, c :: rest =>
    if isPyWs c then
      if prevWs then compressAux true rest else ' ' :: compressAux true rest
    else c :: compressAux false rest

/-- `re.sub` of \s+ with a single space over one line. -/
def compressWs (line : String) : String :=
  String.mk (compressAux false line.toList)

/-- One iteration of the list_pkgs parsing loop: skip a blank line;
split the whitespace-compressed line and take the first two fields as
name and version; on fewer than two fields the ValueError is logged and
the line skipped. -/
def parseLine (acc : PkgListInv) (line : String) : PkgListInv :=
  if line = "" then acc
  else
    match splitOnChar ' ' (compressWs line) with
    | name :: ver :: _ => add_pkg acc name ver
    | _ => acc

/-- The list_pkgs parsing loop over the (already split, blank-free)
output lines: the first line is the header and is skipped. -/
def parseLines (ls : List String) : PkgListInv :=
  match ls with
  | [] => []
  | _ :: rest => rest.foldl parseLine []

/-- Full listing parse: salt.utils.itertools.split on newline (which
yields only the non-empty segments), the header-skipping parse loop,
then pkg_resource.sort_pkglist. -/
def parsePkgs (out : String) : PkgListInv :=
  sort_pkglist (parseLines ((splitOnChar '\n' out).filter fun l => l ≠ ""))

/-- salt.utils.data.compare_dicts: an entry per key whose value
differs, with the empty string standing for a missing key.  Entry order
is canonicalized to old-dict order followed by new-only keys (the
Python original iterates an unordered key set; the mapping content is
identical). -/
def compare_dicts (old new : PyInv) : ChangeSet :=
  (old.filterMap fun kv =>
    match dlookup new kv.1 with
    | none => some (kv.1, kv.2, VVal.vs "")
    | some nv => if kv.2 ≠ nv then some (kv.1, kv.2, nv) else none)
  ++ new.filterMap fun kv =>
    match dlookup old kv.1 with
    | none => some (kv.1, VVal.vs "", kv.2)
    | some _ => none

/-- Message of the invalid-name CommandExecutionError (note the
trailing space, as in the source). -/
def invalidNameMsg : String := "Invalid snap package name "

/-- Message of the invalid-confinement CommandExecutionError. -/
def invalidConfinementMsg : String :=
  "Invalid confinement mode. Options are jailmode, classic and devmode"

/-- Message of the install-failure CommandExecutionError. -/
def installFailMsg : String := "Problem encountered installing package(s)"

/-- Message of the remove-failure CommandExecutionError. -/
def removeFailMsg : String := "Problem encountered removing package(s)"

/-- The scoped-execution wrapper prepended to mutating commands when
salt.utils.systemd.has_scope holds and the systemd.scope config toggle
(default True) is set. -/
def scopeCmd (w : World) : List String :=
  if w.hasScope && w.scopeCfg then ["systemd-run", "--scope"] else []

/-- The argv built by install. -/
def installCmd (w : World) (confinement name : String) : List String :=
  scopeCmd w ++
    ["snap", "install", "--color=never", "--unicode=never",
     "--" ++ confinement, name]

/-- The argv built by remove. -/
def removeCmd (w : World) (name : String) : List String :=
  scopeCmd w ++ ["snap", "remove", name]

/-- list_pkgs (module lines 44-92): return an empty dict for the
unsupported removed/purge_desired categories; on a cache hit return the
cached dict itself when versions_as_list, else a stringified deep copy;
on a miss invoke the listing command once, parse, cache a deep copy of
the result and return it (stringified unless versions_as_list). -/
def list_pkgs (versions_as_list removed purge_desired : Bool)
    (w : World) (s : Ctx) : RetInv × Ctx :=
  if removed || purge_desired then ({ val := [], sharesCache := false }, s)
  else
    match s.cache with
    | some cached =>
      if versions_as_list then ({ val := asListInv cached, sharesCache := true }, s)
      else ({ val := asStrInv cached, sharesCache := false }, s)
    | none =>
      let fresh := parsePkgs (w.listOut s.nList)
      let s' : Ctx := { s with nList := s.nList + 1, cache := some fresh }
      if versions_as_list then ({ val := asListInv fresh, sharesCache := false }, s')
      else ({ val := asStrInv fresh, sharesCache := false }, s')

/-- _clear_versions (module lines 133-135): pop the cache entry with a
default, which succeeds whether or not the entry exists. -/
def _clear_versions (s : Ctx) : Ctx :=
  { s with cache := none }

/-- Match a glob tail after a star: try every suffix of the subject. -/
def globMatchStar (next : List Char → Bool) : List Char → Bool
  | [] => next []
  | c :: cs => next (c :: cs) || globMatchStar next cs

/-- Modelled from the spec: glob-style name matching against inventory
keys, as the stdlib fnmatch performs for the patterns this module
documents (a star matches any run, a question mark any one character;
other characters match literally).  The module itself never imports
fnmatch, so the model is used only to state what the documented
behaviour would be. -/
def globMatch : List Char → List Char → Bool
  | [], cs => cs.isEmpty
  | p :: ps, cs =>
    if p = '*' then globMatchStar (globMatch ps) cs
    else
      match cs with
      | [] => false
      | c :: cs' => (p == c || p == '?') && globMatch ps cs'

/-- The name loop of _resource_version as the source executes it: a
non-glob name is assigned its inventory value (default empty list); a
glob name sets the glob flag and then evaluates `fnmatch.filter`, an
unbound identifier in this module, raising NameError. -/
def buildRet (pkgs : PyInv) : List String → PyInv → Bool →
    Except PyErr (PyInv × Bool)
  | [], ret, g => .ok (ret, g)
  | n :: rest, ret, g =>
    if containsChar n '*' then .error (.nameError "fnmatch")
    else buildRet pkgs rest (dinsert ret n ((dlookup pkgs n).getD (.vl []))) g

/-- Modelled from the spec: the same name loop with the fnmatch import
present, so a glob name assigns every matching inventory key (in
inventory order) its value. -/
def buildRetFixed (pkgs : PyInv) : List String → PyInv → Bool →
    PyInv × Bool
  | [], ret, g => (ret, g)
  | n :: rest, ret, g =>
    if containsChar n '*' then
      let hits := (pkgs.map fun kv => kv.1).filter fun k =>
        globMatch n.toList k.toList
      buildRetFixed pkgs rest
        (hits.foldl (fun r m => dinsert r m ((dlookup pkgs m).getD (.vl []))) ret)
        true
    else buildRetFixed pkgs rest (dinsert ret n ((dlookup pkgs n).getD (.vl []))) g

/-- The return-shape tail of _resource_version: stringify unless
versions_as_list, then return the single value when exactly one entry
was produced and no glob was requested (the StopIteration fallback to
an empty string is kept as the default of head?), else the mapping. -/
def finishVersion (ret0 : PyInv) (pkg_glob versions_as_list : Bool) :
    VersionResult :=
  let ret := if versions_as_list then ret0 else stringifyInv ret0
  if ret.length = 1 ∧ pkg_glob = false then
    .single ((ret.head?.map fun kv => kv.2).getD (.vs ""))
  else .many ret

/-- _resource_version (module lines 95-130): with at least one name,
read the inventory (versions_as_list) and run the name loop; with no
names the empty mapping is returned without touching the inventory. -/
def _resource_version (names : List String) (versions_as_list : Bool)
    (w : World) (s : Ctx) : Except PyErr VersionResult × Ctx :=
  if names.length ≠ 0 then
    let r := list_pkgs true false false w s
    match buildRet r.1.val names [] false with
    | .error e => (.error e, r.2)
    | .ok rg => (.ok (finishVersion rg.1 rg.2 versions_as_list), r.2)
  else (.ok (finishVersion [] false versions_as_list), s)

/-- Modelled from the spec: _resource_version as documented, with the
fnmatch import present (used only to state the intended glob shape). -/
def _resource_version_fixed (names : List String) (versions_as_list : Bool)
    (w : World) (s : Ctx) : VersionResult × Ctx :=
  if names.length ≠ 0 then
    let r := list_pkgs true false false w s
    let rg := buildRetFixed r.1.val names [] false
    ((finishVersion rg.1 rg.2 versions_as_list), r.2)
  else ((finishVersion [] false versions_as_list), s)

/-- version (module lines 138-151): delegates to _resource_version;
callers in the state layer pass no keyword arguments, so
versions_as_list is False. -/
def version (names : List String) (w : World) (s : Ctx) :
    Except PyErr VersionResult × Ctx :=
  _resource_version names false w s

/-- install (module lines 154-203): validate the name and the
confinement; read the before inventory (through the cache); run the
install command; record stderr when the exit code is nonzero and stderr
non-empty; clear the cache; read the after inventory; diff; raise with
the errors and the diff as payload when an error was recorded, else
return the diff. -/
def install (name confinement : String) (w : World) (s : Ctx) :
    Except PyErr ChangeSet × Ctx :=
  if startswithChar name '-' then
    (.error (.commandExecution invalidNameMsg none), s)
  else if confinement ∉ (["jailmode", "classic", "devmode"] : List String) then
    (.error (.commandExecution invalidConfinementMsg none), s)
  else
    let cmd := installCmd w confinement name
    let r1 := list_pkgs false false false w s
    let old_versions := r1.1.val
    let out := w.runOut r1.2.nRun
    let s2 : Ctx := { r1.2 with nRun := r1.2.nRun + 1, mutLog := r1.2.mutLog ++ [cmd] }
    let errors : List String :=
      if out.retcode ≠ 0 ∧ out.stderr ≠ "" then [out.stderr] else []
    let r2 := list_pkgs false false false w (_clear_versions s2)
    let new_versions := r2.1.val
    let ret := compare_dicts old_versions new_versions
    if errors ≠ [] then
      (.error (.commandExecution installFailMsg
        (some { errors := errors, changes := some ret })), r2.2)
    else (.ok ret, r2.2)

/-- remove (module lines 206-245): same protocol as install with the
removal command; the confinement parameter is accepted (default
jailmode) but never validated or used. -/
def remove (name confinement : String) (w : World) (s : Ctx) :
    Except PyErr ChangeSet × Ctx :=
  if startswithChar name '-' then
    (.error (.commandExecution invalidNameMsg none), s)
  else
    let cmd := removeCmd w name
    let r1 := list_pkgs false false false w s
    let old_versions := r1.1.val
    let out := w.runOut r1.2.nRun
    let s2 : Ctx := { r1.2 with nRun := r1.2.nRun + 1, mutLog := r1.2.mutLog ++ [cmd] }
    let errors : List String :=
      if out.retcode ≠ 0 ∧ out.stderr ≠ "" then [out.stderr] else []
    let r2 := list_pkgs false false false w (_clear_versions s2)
    let new_versions := r2.1.val
    let ret := compare_dicts old_versions new_versions
    if errors ≠ [] then
      (.error (.commandExecution removeFailMsg
        (some { errors := errors, changes := some ret })), r2.2)
    else (.ok ret, r2.2)

/-- Modelled from the spec: the strerror_without_changes attribute of a
CommandExecutionError carrying an info payload — the human-readable
comment rendering the message and the non-changes part of the payload
(the error list), with the changes omitted. -/
def strerror_without_changes (msg : String) (i : ErrInfo) : String :=
  msg ++ ". Additional info follows: " ++ String.intercalate "; " i.errors

/-- An error payload ChangeSet as it appears in the changes field of a
failed state return (the raw dict of old/new pairs). -/
def rawChanges (cs : ChangeSet) : List (String × ChVal) :=
  cs.map fun e => (e.1, .pair e.2.1 e.2.2)

/-- Python truthiness of a version result: a string is truthy when
non-empty, a list or dict when non-empty. -/
def pyTruthy : VersionResult → Bool
  | .single (.vs t) => t != ""
  | .single (.vl l) => !l.isEmpty
  | .many d => !d.isEmpty

/-- The scalar the state layer sees for a name when the cache holds
`c`: the comma-joined version list of the name (empty when absent). -/
def cacheVersion (c : PkgListInv) (name : String) : String :=
  String.intercalate "," ((dlookupL c name).getD [])

/-- installed (state lines 5-37): Already-Satisfied when version(name)
is truthy; else install, recording its ChangeSet under the key
installed on success; a CommandExecutionError is caught and converted
to a failed report carrying the payload changes and comment (with a
generic fallback when the exception has no payload); any other
exception propagates. -/
def installed (name confinement : String) (w : World) (s : Ctx) :
    Except PyErr StateReport × Ctx :=
  let rv := version [name] w s
  match rv.1 with
  | .error e => (.error e, rv.2)
  | .ok v =>
    if pyTruthy v then
      (.ok { name := name, result := true, changes := [], comment := "" }, rv.2)
    else
      let ri := install name confinement w rv.2
      match ri.1 with
      | .ok cs =>
        (.ok { name := name, result := true,
               changes := [("installed", .sub cs)], comment := "" }, ri.2)
      | .error (.commandExecution m (some i)) =>
        (.ok { name := name, result := false,
               changes := rawChanges (i.changes.getD []),
               comment := strerror_without_changes m i }, ri.2)
      | .error (.commandExecution m none) =>
        (.ok { name := name, result := false, changes := [],
               comment := "An error was encountered while installing package(s): " ++ m },
         ri.2)
      | .error e => (.error e, ri.2)

/-- removed (state lines 40-68): Already-Satisfied when version(name)
is falsy; else remove (called with only the name, so the confinement
default applies), with the same success and error conversion as
installed — the success ChangeSet is likewise stored under the key
installed. -/
def removed (name : String) (w : World) (s : Ctx) :
    Except PyErr StateReport × Ctx :=
  let rv := version [name] w s
  match rv.1 with
  | .error e => (.error e, rv.2)
  | .ok v =>
    if !pyTruthy v then
      (.ok { name := name, result := true, changes := [], comment := "" }, rv.2)
    else
      let ri := remove name "jailmode" w rv.2
      match ri.1 with
      | .ok cs =>
        (.ok { name := name, result := true,
               changes := [("installed", .sub cs)], comment := "" }, ri.2)
      | .error (.commandExecution m (some i)) =>
        (.ok { name := name, result := false,
               changes := rawChanges (i.changes.getD []),
               comment := strerror_without_changes m i }, ri.2)
      | .error (.commandExecution m none) =>
        (.ok { name := name, result := false, changes := [],
               comment := "An error was encountered while removing package(s): " ++ m },
         ri.2)
      | .error e => (.error e, ri.2)


/-- The changes field a failed state report takes from a caught
CommandExecutionError: the payload changes when an info payload exists
(default empty), else empty. -/
def errStateChanges : Option ErrInfo → List (String × ChVal)
  | some i => rawChanges (i.changes.getD [])
  | none => []

/-- The comment field a failed state report takes from a caught
CommandExecutionError: its strerror_without_changes when an info
payload exists, else the generic fallback around the message. -/
def errStateComment (fallback m : String) : Option ErrInfo → String
  | some i => strerror_without_changes m i
  | none => fallback ++ m

/-- The empty starting context: no cache, no external calls yet. -/
def ctx0 : Ctx := { cache := none, nList := 0, nRun := 0, mutLog := [] }

/-- A cooperating world: the first listing reports nothing installed,
every later listing reports foo at version 1.0, and every mutating
command succeeds. -/
def wConverge : World :=
  { listOut := fun k => if k = 0 then "Name Version" else "Name Version\nfoo 1.0",
    runOut := fun _ => { retcode := 0, stdout := "", stderr := "" },
    hasScope := false, scopeCfg := true }

/-- The context after a first converging installed call of foo under
wConverge: the cache holds the post-install inventory, two listing
reads and one mutating command happened. -/
def c1Ctx : Ctx :=
  { cache := some [("foo", ["1.0"])], nList := 2, nRun := 1,
    mutLog := [["snap", "install", "--color=never", "--unicode=never",
                "--jailmode", "foo"]] }

/-- A world whose mutating command fails (exit 1, stderr boom) while
the package nevertheless appears in the following listing — a partial
effect. -/
def wErrInstall : World :=
  { listOut := fun k => if k = 0 then "Name Version" else "Name Version\nfoo 1.0",
    runOut := fun _ => { retcode := 1, stdout := "", stderr := "boom" },
    hasScope := false, scopeCfg := true }

/-- A world where foo is installed, removal fails (exit 1, stderr
rboom) and the inventory is unchanged by it. -/
def wErrRemove : World :=
  { listOut := fun _ => "Name Version\nfoo 1.0",
    runOut := fun _ => { retcode := 1, stdout := "", stderr := "rboom" },
    hasScope := false, scopeCfg := true }

/-- A world whose every listing reports exactly one package, fresh at
version 1, and whose commands succeed. -/
def wFresh : World :=
  { listOut := fun _ => "Name Version\nfresh 1",
    runOut := fun _ => { retcode := 0, stdout := "", stderr := "" },
    hasScope := false, scopeCfg := true }

/-- A context holding a stale cached inventory (package stale at 9)
that no listing of wFresh would reproduce. -/
def sStale : Ctx :=
  { cache := some [("stale", ["9"])], nList := 0, nRun := 0, mutLog := [] }

/-- A world whose listing reports foo 1, foobar 2 and baz 3. -/
def w8 : World :=
  { listOut := fun _ => "Name Version\nfoo 1\nfoobar 2\nbaz 3",
    runOut := fun _ => { retcode := 0, stdout := "", stderr := "" },
    hasScope := false, scopeCfg := true }

/-- The context after one listing read under w8. -/
def s8 : Ctx :=
  { cache := some [("foo", ["1"]), ("foobar", ["2"]), ("baz", ["3"])],
    nList := 1, nRun := 0, mutLog := [] }

theorem dlookup_asListInv (c : PkgListInv) (n : String) :
    dlookup (asListInv c) n = (dlookupL c n).map VVal.vl := by
  induction c with
  | nil => rfl
  | cons kv rest ih =>
    by_cases h : kv.1 == n
    · simp [asListInv, dlookup, dlookupL, h]
    · simp only [asListInv, List.map_cons, dlookup, dlookupL] at *
      simp [h, ih]

theorem dlookupL_add_pkg_self (pkgs : PkgListInv) (name ver : String) :
    dlookupL (add_pkg pkgs name ver) name =
      some (((dlookupL pkgs name).getD []) ++ [ver]) := by
  induction pkgs with
  | nil => simp [add_pkg, dlookupL]
  | cons kv rest ih =>
    by_cases h : kv.1 == name
    · simp [add_pkg, dlookupL, h]
    · simp [add_pkg, dlookupL, h, ih]

theorem dlookupL_add_pkg_other (pkgs : PkgListInv) (name ver n : String)
    (h : (n == name) = false) :
    dlookupL (add_pkg pkgs name ver) n = dlookupL pkgs n := by
  have hne : n ≠ name := by simpa [beq_iff_eq] using h
  have hne2 : ¬ name = n := fun hEq => hne hEq.symm
  induction pkgs with
  | nil =>
    simp [add_pkg, dlookupL, beq_iff_eq, hne2]
  | cons kv rest ih =>
    by_cases hk : (kv.1 == name) = true
    · have hkv : kv.1 = name := by simpa [beq_iff_eq] using hk
      have hkn : (kv.1 == n) = false := by simp [beq_iff_eq, hkv, hne2]
      simp [add_pkg, dlookupL, hk, hkn]
    · simp only [add_pkg, hk, Bool.false_eq_true, if_false, dlookupL, ih]

theorem mem_dget_add_pkg (pkgs : PkgListInv) (name ver n v : String)
    (h : v ∈ (dlookupL pkgs n).getD []) :
    v ∈ (dlookupL (add_pkg pkgs name ver) n).getD [] := by
  by_cases hn : (n == name) = true
  · have hEq : n = name := by simpa [beq_iff_eq] using hn
    subst hEq
    rw [dlookupL_add_pkg_self]
    simp only [Option.getD_some, List.mem_append]
    exact Or.inl h
  · rw [dlookupL_add_pkg_other _ _ _ _ (by simpa using hn)]
    exact h

theorem mem_dget_add_pkg_self (pkgs : PkgListInv) (name ver : String) :
    ver ∈ (dlookupL (add_pkg pkgs name ver) name).getD [] := by
  rw [dlookupL_add_pkg_self]
  simp

theorem mem_dget_parseLine (acc : PkgListInv) (line : String) (n v : String)
    (h : v ∈ (dlookupL acc n).getD []) :
    v ∈ (dlookupL (parseLine acc line) n).getD [] := by
  unfold parseLine
  by_cases hb : line = ""
  · simpa [hb] using h
  · simp only [hb, if_false]
    match hsp : splitOnChar ' ' (compressWs line) with
    | [] => exact h
    | [x] => exact h
    | a :: b :: t => exact mem_dget_add_pkg _ _ _ _ _ h

theorem mem_dget_foldl (ls : List String) (acc : PkgListInv) (n v : String)
    (h : v ∈ (dlookupL acc n).getD []) :
    v ∈ (dlookupL (ls.foldl parseLine acc) n).getD [] := by
  induction ls generalizing acc with
  | nil => exact h
  | cons a rest ih => exact ih _ (mem_dget_parseLine _ _ _ _ h)

theorem mem_dget_foldl_of_line (ls : List String) (acc : PkgListInv)
    (line n v : String) (rest : List String)
    (hmem : line ∈ ls)
    (hsp : splitOnChar ' ' (compressWs line) = n :: v :: rest) :
    v ∈ (dlookupL (ls.foldl parseLine acc) n).getD [] := by
  induction ls generalizing acc with
  | nil => cases hmem
  | cons a tail ih =>
    rcases List.mem_cons.mp hmem with hEq | hTail
    · subst hEq
      have hline : line ≠ "" := by
        intro hz
        rw [hz] at hsp
        have hx : splitOnChar ' ' (compressWs "") = [""] := by decide
        rw [hx] at hsp
        simp at hsp
      have hstep : parseLine acc line = add_pkg acc n v := by
        unfold parseLine
        simp [hline, hsp]
      simp only [List.foldl_cons, hstep]
      exact mem_dget_foldl _ _ _ _ (mem_dget_add_pkg_self _ _ _)
    · exact ih _ hTail

theorem parseLine_skip (acc : PkgListInv) (bad : String)
    (h : (splitOnChar ' ' (compressWs bad)).length < 2) :
    parseLine acc bad = acc := by
  unfold parseLine
  by_cases hb : bad = ""
  · simp [hb]
  · simp only [hb, if_false]
    match hsp : splitOnChar ' ' (compressWs bad) with
    | [] => rfl
    | [x] => rfl
    | a :: b :: t =>
      rw [hsp] at h
      simp at h
      omega

theorem mem_insertSorted (a v : String) (l : List String) :
    a ∈ insertSorted v l ↔ a = v ∨ a ∈ l := by
  induction l with
  | nil => simp [insertSorted]
  | cons x xs ih =>
    unfold insertSorted
    by_cases h : pyStrLe v x
    · simp [h]
    · simp only [h, Bool.false_eq_true, if_false, List.mem_cons, ih]
      tauto

theorem mem_sortStrings (a : String) (l : List String) :
    a ∈ sortStrings l ↔ a ∈ l := by
  induction l with
  | nil => simp [sortStrings]
  | cons x xs ih => simp [sortStrings, mem_insertSorted, ih]

theorem mem_sortedDedup (a : String) (l : List String) :
    a ∈ sortedDedup l ↔ a ∈ l := by
  simp [sortedDedup, mem_sortStrings, List.mem_dedup]

theorem dlookupL_sort_pkglist (pkgs : PkgListInv) (n : String) :
    dlookupL (sort_pkglist pkgs) n = (dlookupL pkgs n).map sortedDedup := by
  induction pkgs with
  | nil => rfl
  | cons kv rest ih =>
    by_cases h : kv.1 == n
    · simp [sort_pkglist, dlookupL, h]
    · simp only [sort_pkglist, List.map_cons, dlookupL, h, Bool.false_eq_true,
        if_false] at *
      exact ih

theorem compare_dicts_eq_nil (old new : PyInv)
    (h : compare_dicts old new = []) :
    ∀ k, dlookup old k = dlookup new k := by
  unfold compare_dicts at h
  rw [List.append_eq_nil] at h
  obtain ⟨hOld, hNew⟩ := h
  rw [List.filterMap_eq_nil_iff] at hOld hNew
  intro k
  cases hfo : dlookup old k with
  | some ov =>
    have hmem : ∃ kv ∈ old, kv.1 = k ∧ kv.2 = ov := by
      clear hOld hNew
      induction old with
      | nil => cases hfo
      | cons kv rest ih =>
        by_cases hk : kv.1 == k
        · rw [dlookup, if_pos hk] at hfo
          exact ⟨kv, List.mem_cons_self _ _, by simpa [beq_iff_eq] using hk,
            Option.some.inj hfo⟩
        · rw [dlookup, if_neg (by simpa using hk)] at hfo
          obtain ⟨kv2, hm, hk2, hv2⟩ := ih hfo
          exact ⟨kv2, List.mem_cons_of_mem _ hm, hk2, hv2⟩
    obtain ⟨kv, hmem, hk1, hk2⟩ := hmem
    have := hOld kv hmem
    rw [hk1, hk2] at this
    cases hfn : dlookup new k with
    | none => rw [hfn] at this; simp at this
    | some nv =>
      rw [hfn] at this
      by_cases hEq : ov = nv
      · rw [hEq]
      · simp [hEq] at this
  | none =>
    cases hfn : dlookup new k with
    | none => rfl
    | some nv =>
      exfalso
      have hmem : ∃ kv ∈ new, kv.1 = k := by
        clear hOld hNew hfo
        induction new with
        | nil => cases hfn
        | cons kv rest ih =>
          by_cases hk : kv.1 == k
          · exact ⟨kv, List.mem_cons_self _ _, by simpa [beq_iff_eq] using hk⟩
          · rw [dlookup, if_neg (by simpa using hk)] at hfn
            obtain ⟨kv2, hm, hk2⟩ := ih hfn
            exact ⟨kv2, List.mem_cons_of_mem _ hm, hk2⟩
      obtain ⟨kv, hmem, hk1⟩ := hmem
      have := hNew kv hmem
      rw [hk1, hfo] at this
      simp at this


theorem version_single_of_cache (w : World) (s : Ctx) (c : PkgListInv)
    (name : String) (hc : s.cache = some c)
    (hg : containsChar name '*' = false) :
    version [name] w s = (.ok (.single (.vs (cacheVersion c name))), s) := by
  have hv : (dlookup (asListInv c) name).getD (.vl []) =
      .vl ((dlookupL c name).getD []) := by
    rw [dlookup_asListInv]
    cases dlookupL c name <;> rfl
  simp only [version, _resource_version, list_pkgs, hc, Bool.or_self,
    Bool.false_eq_true, if_false, if_true]
  simp [buildRet, hg, hv, dinsert, finishVersion, stringifyInv, stringifyVal,
    cacheVersion]

/-- C1: Idempotence of state convergence.  The second of two
back-to-back calls of installed (resp. removed) — formalized as a call
performed on the state the first call returned, under the
no-intervening-external-change reading that the inventory the first
call recorded in the cache still reflects the system and satisfies the
desired state (the name resolves to a non-empty version after install
convergence, to an empty one after removal convergence) — returns the
Already-Satisfied report with success, an empty ChangeSet and an empty
comment, leaves the state untouched, and consults no external oracle at
all (the second call is evaluated against an arbitrary world wNext),
so no mutating operation is issued. -/
theorem c1_idempotent_second_call :
    (∀ (w wNext : World) (s : Ctx) (name conf : String)
        (r1 : StateReport) (s1 : Ctx) (c : PkgListInv),
      containsChar name '*' = false →
      installed name conf w s = (.ok r1, s1) →
      r1.result = true →
      s1.cache = some c →
      cacheVersion c name ≠ "" →
      installed name conf wNext s1 =
        (.ok { name := name, result := true, changes := [], comment := "" }, s1)) ∧
    (∀ (w wNext : World) (s : Ctx) (name : String)
        (r1 : StateReport) (s1 : Ctx) (c : PkgListInv),
      containsChar name '*' = false →
      removed name w s = (.ok r1, s1) →
      r1.result = true →
      s1.cache = some c →
      cacheVersion c name = "" →
      removed name wNext s1 =
        (.ok { name := name, result := true, changes := [], comment := "" }, s1)) := by
  constructor
  · intro w wNext s name conf r1 s1 c h0 h1 h2 h3 h4
    have hv := version_single_of_cache wNext s1 c name h3 h0
    simp [installed, hv, pyTruthy, h4]
  · intro w wNext s name r1 s1 c h0 h1 h2 h3 h4
    have hv := version_single_of_cache wNext s1 c name h3 h0
    rw [h4] at hv
    simp [removed, hv, pyTruthy]

/-- C3: the state layer never propagates a CommandExecutionError from
install or remove: whenever the mutating call raises one, installed
(resp. removed) returns an ordinary report with success false, the
changes taken from the error payload when present (else empty), and the
comment taken from the error (its strerror_without_changes, or the
generic fallback text when the error carries no payload). -/
theorem c3_state_catches_operation_error :
    (∀ (w : World) (s : Ctx) (name conf : String) (v : VersionResult)
        (s1 : Ctx) (m : String) (info : Option ErrInfo) (s2 : Ctx),
      version [name] w s = (.ok v, s1) →
      pyTruthy v = false →
      install name conf w s1 = (.error (.commandExecution m info), s2) →
      installed name conf w s =
        (.ok { name := name, result := false, changes := errStateChanges info,
               comment := errStateComment
                 "An error was encountered while installing package(s): " m info },
         s2)) ∧
    (∀ (w : World) (s : Ctx) (name : String) (v : VersionResult)
        (s1 : Ctx) (m : String) (info : Option ErrInfo) (s2 : Ctx),
      version [name] w s = (.ok v, s1) →
      pyTruthy v = true →
      remove name "jailmode" w s1 = (.error (.commandExecution m info), s2) →
      removed name w s =
        (.ok { name := name, result := false, changes := errStateChanges info,
               comment := errStateComment
                 "An error was encountered while removing package(s): " m info },
         s2)) := by
  constructor
  · intro w s name conf v s1 m info s2 h1 h2 h3
    cases info with
    | some i => simp [installed, h1, h2, h3, errStateChanges, errStateComment]
    | none => simp [installed, h1, h2, h3, errStateChanges, errStateComment]
  · intro w s name v s1 m info s2 h1 h2 h3
    cases info with
    | some i => simp [removed, h1, h2, h3, errStateChanges, errStateComment]
    | none => simp [removed, h1, h2, h3, errStateChanges, errStateComment]

/-- C4: validation aborts before any external call and with no side
effects: a name with a leading dash makes install and remove return the
invalid-name CommandExecutionError with the state completely untouched
(so no external command ran and the cache was not read or written); a
confinement outside the closed set makes install return the
invalid-confinement error, likewise with the state untouched. -/
theorem c4_validation_aborts_early :
    (∀ (w : World) (s : Ctx) (name conf : String),
      startswithChar name '-' = true →
      install name conf w s = (.error (.commandExecution invalidNameMsg none), s) ∧
      remove name conf w s = (.error (.commandExecution invalidNameMsg none), s)) ∧
    (∀ (w : World) (s : Ctx) (name conf : String),
      startswithChar name '-' = false →
      conf ∉ (["jailmode", "classic", "devmode"] : List String) →
      install name conf w s =
        (.error (.commandExecution invalidConfinementMsg none), s)) := by
  constructor
  · intro w s name conf h
    exact ⟨by simp [install, h], by simp [remove, h]⟩
  · intro w s name conf h hconf
    simp [install, h, hconf]

/-- C7: _clear_versions clears the cache unconditionally (it pops with
a default, so it also succeeds — it is a total function — when no entry
exists) and touches nothing else; and the first list_pkgs call after
it, for either value of versions_as_list and regardless of how many
reads happened before (the state s is arbitrary), invokes the external
listing command exactly once (nList rises by exactly one), returns the
parse of that single invocation rather than any prior cached data, and
stores it in the cache. -/
theorem c7_invalidate_then_fresh_read (s : Ctx) (w : World) (b : Bool) :
    (_clear_versions s).cache = none ∧
    (_clear_versions s).nList = s.nList ∧
    (_clear_versions s).nRun = s.nRun ∧
    (_clear_versions s).mutLog = s.mutLog ∧
    (list_pkgs b false false w (_clear_versions s)).2.nList = s.nList + 1 ∧
    (list_pkgs b false false w (_clear_versions s)).2.cache =
      some (parsePkgs (w.listOut s.nList)) ∧
    (list_pkgs b false false w (_clear_versions s)).1.val =
      (if b then asListInv (parsePkgs (w.listOut s.nList))
       else asStrInv (parsePkgs (w.listOut s.nList))) ∧
    (list_pkgs b false false w (_clear_versions s)).1.sharesCache = false := by
  cases b <;> simp [_clear_versions, list_pkgs]

/-- C5 (amended): on a cache hit, list_pkgs returns without invoking
the external listing command (the state, including the invocation
count, is returned unchanged); the returned dict is shaped per
versions_as_list, and it is a fresh stringified deep copy when
versions_as_list is false, but it is the cached object itself — not a
copy — when versions_as_list is true (sharesCache is exactly the
flag). -/
theorem c5_cache_hit_shape (w : World) (s : Ctx) (c : PkgListInv) (b : Bool)
    (hc : s.cache = some c) :
    list_pkgs b false false w s =
      ({ val := if b then asListInv c else asStrInv c, sharesCache := b }, s) := by
  cases b <;> simp [list_pkgs, hc]

/-- C10: remove accepts a confinement argument but never validates or
uses it: the result (return value, error, issued command and final
state alike) is identical for every pair of confinement values; remove
never returns the invalid-confinement validation error for any
confinement; and, by contrast, install rejects the same out-of-set
confinement value bogus before doing anything. -/
theorem c10_remove_ignores_confinement :
    (∀ (w : World) (s : Ctx) (name c1 c2 : String),
      remove name c1 w s = remove name c2 w s) ∧
    (∀ (w : World) (s : Ctx) (name conf : String),
      (remove name conf w s).1 ≠
        .error (.commandExecution invalidConfinementMsg none)) ∧
    (∀ (w : World) (s : Ctx) (name : String),
      startswithChar name '-' = false →
      install name "bogus" w s =
        (.error (.commandExecution invalidConfinementMsg none), s)) := by
  refine ⟨fun w s name c1 c2 => rfl, ?_, ?_⟩
  · intro w s name conf
    unfold remove
    by_cases h : startswithChar name '-'
    · simp only [h, if_true]
      intro hEq
      simp [invalidNameMsg, invalidConfinementMsg] at hEq
    · simp only [h, Bool.false_eq_true, if_false]
      split
      · intro hEq
        simp at hEq
      · intro hEq
        simp at hEq
  · intro w s name h
    simp [install, h]

/-- C2: unconditional diff on mutation.  For every install or remove
call that passes validation, the before inventory is read, the command
runs, the cache is cleared, the after inventory is read, and the
ChangeSet of the two is computed no matter how the command exited: when
the exit code is nonzero and stderr non-empty the call fails with the
CommandExecutionError whose payload carries both the error message list
and that ChangeSet; otherwise the same ChangeSet is the return value.
Moreover the ChangeSet is faithful: when it is empty the two
inventories agree on every key, so it is non-empty whenever the
inventory actually differed. -/
theorem c2_unconditional_diff :
    (∀ (w : World) (s : Ctx) (name conf : String) (r1 : RetInv × Ctx)
        (out : CmdResult) (s2 : Ctx) (r2 : RetInv × Ctx) (cs : ChangeSet),
      startswithChar name '-' = false →
      conf ∈ (["jailmode", "classic", "devmode"] : List String) →
      r1 = list_pkgs false false false w s →
      out = w.runOut r1.2.nRun →
      s2 = { r1.2 with
             nRun := r1.2.nRun + 1
             mutLog := r1.2.mutLog ++ [installCmd w conf name] } →
      r2 = list_pkgs false false false w (_clear_versions s2) →
      cs = compare_dicts r1.1.val r2.1.val →
      ((out.retcode ≠ 0 ∧ out.stderr ≠ "") →
        install name conf w s =
          (.error (.commandExecution installFailMsg
            (some { errors := [out.stderr], changes := some cs })), r2.2)) ∧
      ((out.retcode = 0 ∨ out.stderr = "") →
        install name conf w s = (.ok cs, r2.2)) ∧
      (cs = [] → ∀ k, dlookup r1.1.val k = dlookup r2.1.val k)) ∧
    (∀ (w : World) (s : Ctx) (name conf : String) (r1 : RetInv × Ctx)
        (out : CmdResult) (s2 : Ctx) (r2 : RetInv × Ctx) (cs : ChangeSet),
      startswithChar name '-' = false →
      r1 = list_pkgs false false false w s →
      out = w.runOut r1.2.nRun →
      s2 = { r1.2 with
             nRun := r1.2.nRun + 1
             mutLog := r1.2.mutLog ++ [removeCmd w name] } →
      r2 = list_pkgs false false false w (_clear_versions s2) →
      cs = compare_dicts r1.1.val r2.1.val →
      ((out.retcode ≠ 0 ∧ out.stderr ≠ "") →
        remove name conf w s =
          (.error (.commandExecution removeFailMsg
            (some { errors := [out.stderr], changes := some cs })), r2.2)) ∧
      ((out.retcode = 0 ∨ out.stderr = "") →
        remove name conf w s = (.ok cs, r2.2)) ∧
      (cs = [] → ∀ k, dlookup r1.1.val k = dlookup r2.1.val k)) := by
  constructor
  · intro w s name conf r1 out s2 r2 cs hname hconf hr1 hout hs2 hr2 hcs
    subst hr1 hout hs2 hr2 hcs
    unfold install
    simp only [hname, Bool.false_eq_true, if_false, hconf, not_true_eq_false]
    refine ⟨?_, ?_, ?_⟩
    · intro hc
      simp only [if_pos hc]
      rw [if_pos (by simp)]
    · intro hc
      have hnc : ¬((w.runOut (list_pkgs false false false w s).2.nRun).retcode ≠ 0 ∧
          (w.runOut (list_pkgs false false false w s).2.nRun).stderr ≠ "") := by
        tauto
      simp only [if_neg hnc]
      rw [if_neg (by simp)]
    · intro hnil k
      exact compare_dicts_eq_nil _ _ hnil k
  · intro w s name conf r1 out s2 r2 cs hname hr1 hout hs2 hr2 hcs
    subst hr1 hout hs2 hr2 hcs
    unfold remove
    simp only [hname, Bool.false_eq_true, if_false]
    refine ⟨?_, ?_, ?_⟩
    · intro hc
      simp only [if_pos hc]
      rw [if_pos (by simp)]
    · intro hc
      have hnc : ¬((w.runOut (list_pkgs false false false w s).2.nRun).retcode ≠ 0 ∧
          (w.runOut (list_pkgs false false false w s).2.nRun).stderr ≠ "") := by
        tauto
      simp only [if_neg hnc]
      rw [if_neg (by simp)]
    · intro hnil k
      exact compare_dicts_eq_nil _ _ hnil k

/-- C6 (amended): only the after snapshot of a mutation is
invalidate-then-read.  When a cached inventory c exists, install (and
remove) serve the before snapshot straight from that cache — issuing no
listing command for it — while the after snapshot is always read after
_clear_versions, so it is the parse of the single external listing
invocation the call performs (nList rises by exactly one, from the
mutation-following read); the reported ChangeSet is the diff of the
stale cached before and that fresh after. -/
theorem c6_before_stale_after_fresh :
    (∀ (w : World) (s : Ctx) (c : PkgListInv) (name conf : String)
        (fresh : PkgListInv) (cs : ChangeSet) (out : CmdResult),
      s.cache = some c →
      startswithChar name '-' = false →
      conf ∈ (["jailmode", "classic", "devmode"] : List String) →
      fresh = parsePkgs (w.listOut s.nList) →
      cs = compare_dicts (asStrInv c) (asStrInv fresh) →
      out = w.runOut s.nRun →
      install name conf w s =
        (if out.retcode ≠ 0 ∧ out.stderr ≠ "" then
           .error (.commandExecution installFailMsg
             (some { errors := [out.stderr], changes := some cs }))
         else .ok cs,
         { cache := some fresh, nList := s.nList + 1, nRun := s.nRun + 1,
           mutLog := s.mutLog ++ [installCmd w conf name] })) ∧
    (∀ (w : World) (s : Ctx) (c : PkgListInv) (name conf : String)
        (fresh : PkgListInv) (cs : ChangeSet) (out : CmdResult),
      s.cache = some c →
      startswithChar name '-' = false →
      fresh = parsePkgs (w.listOut s.nList) →
      cs = compare_dicts (asStrInv c) (asStrInv fresh) →
      out = w.runOut s.nRun →
      remove name conf w s =
        (if out.retcode ≠ 0 ∧ out.stderr ≠ "" then
           .error (.commandExecution removeFailMsg
             (some { errors := [out.stderr], changes := some cs }))
         else .ok cs,
         { cache := some fresh, nList := s.nList + 1, nRun := s.nRun + 1,
           mutLog := s.mutLog ++ [removeCmd w name] })) := by
  constructor
  · intro w s c name conf fresh cs out hc hname hconf hfresh hcs hout
    subst hfresh hcs hout
    unfold install
    simp only [hname, Bool.false_eq_true, if_false, hconf, not_true_eq_false]
    simp only [list_pkgs, _clear_versions, hc, Bool.or_self, Bool.false_eq_true,
      if_false]
    by_cases hcnd : (w.runOut s.nRun).retcode ≠ 0 ∧ (w.runOut s.nRun).stderr ≠ ""
    · simp [hcnd]
    · simp [hcnd]
  · intro w s c name conf fresh cs out hc hname hfresh hcs hout
    subst hfresh hcs hout
    unfold remove
    simp only [hname, Bool.false_eq_true, if_false]
    simp only [list_pkgs, _clear_versions, hc, Bool.or_self, Bool.false_eq_true,
      if_false]
    by_cases hcnd : (w.runOut s.nRun).retcode ≠ 0 ∧ (w.runOut s.nRun).stderr ≠ ""
    · simp [hcnd]
    · simp [hcnd]

/-- C9: parse resilience of the listing loop.  A non-header line whose
whitespace-compressed form yields fewer than two fields (the ValueError
case, which is logged) is skipped without aborting the parse — the
result equals the parse of the same output with the malformed line
removed — and every well-formed non-header line, whether before or
after the malformed one, still contributes its version to the entry of
its name in the sorted inventory that list_pkgs returns. -/
theorem c9_parse_resilience (l1 l2 : List String) (bad : String)
    (h1 : l1 ≠ []) (h2 : (splitOnChar ' ' (compressWs bad)).length < 2) :
    parseLines (l1 ++ bad :: l2) = parseLines (l1 ++ l2) ∧
    ∀ (line n v : String) (rest : List String),
      line ∈ l1.tail ++ l2 →
      splitOnChar ' ' (compressWs line) = n :: v :: rest →
      v ∈ (dlookupL (sort_pkglist (parseLines (l1 ++ bad :: l2))) n).getD [] := by
  obtain ⟨hd, t, rfl⟩ : ∃ hd t, l1 = hd :: t := by
    cases l1 with
    | nil => exact absurd rfl h1
    | cons a b => exact ⟨a, b, rfl⟩
  constructor
  · show parseLines (hd :: (t ++ bad :: l2)) = parseLines (hd :: (t ++ l2))
    unfold parseLines
    dsimp only
    rw [List.foldl_append, List.foldl_cons, parseLine_skip _ _ h2,
      ← List.foldl_append]
  · intro line n v rest hmem hsp
    have hmem2 : line ∈ t ++ bad :: l2 := by
      simp only [List.tail_cons] at hmem
      rcases List.mem_append.mp hmem with h | h
      · exact List.mem_append.mpr (Or.inl h)
      · exact List.mem_append.mpr (Or.inr (List.mem_cons_of_mem _ h))
    have hv := mem_dget_foldl_of_line (t ++ bad :: l2) [] line n v rest hmem2 hsp
    show v ∈ (dlookupL (sort_pkglist
      (parseLines (hd :: (t ++ bad :: l2)))) n).getD []
    rw [dlookupL_sort_pkglist]
    unfold parseLines
    dsimp only
    cases hl : dlookupL (List.foldl parseLine [] (t ++ bad :: l2)) n with
    | none => rw [hl] at hv; simp at hv
    | some lst =>
      rw [hl] at hv
      simp only [Option.getD_some] at hv
      simp only [Option.map_some', Option.getD_some]
      exact (mem_sortedDedup v lst).mpr hv

/-- C8: return-shape contract of version, evaluated on the inventory
foo 1, foobar 2, baz 3.  The single-concrete-name half of the claim
holds: version of the one name foo returns the scalar 1.  The glob half
does not execute as claimed: the module never imports fnmatch, so any
requested name containing a star reaches the unbound identifier and
raises NameError instead of returning a mapping.  The spec-modelled
variant with the import present (only that one slip repaired) does
return the documented mapping — also for a glob with exactly one
match. -/
theorem c8_version_shape_and_glob_bug :
    version ["foo*"] w8 ctx0 = (.error (.nameError "fnmatch"), s8) ∧
    version ["foo"] w8 ctx0 = (.ok (.single (.vs "1")), s8) ∧
    _resource_version_fixed ["foo*"] false w8 ctx0 =
      (.many [("foo", .vs "1"), ("foobar", .vs "2")], s8) ∧
    _resource_version_fixed ["baz*"] false w8 ctx0 =
      (.many [("baz", .vs "3")], s8) := by
  exact ⟨by decide, by decide, by decide, by decide⟩

/-- C5 counterexample: the claim asserts that with a cached inventory
both shapes of list_pkgs return a deep copy, so that no caller-side
mutation can reach the cache.  On the versions_as_list call the code
returns the object stored in the cache itself (line 64 returns the
context entry without copy.deepcopy): sharesCache is true, while a deep
copy would have to be a fresh object.  The external command is indeed
not invoked (the state is unchanged). -/
theorem c5_counterexample :
    (list_pkgs true false false wFresh sStale).1.sharesCache = true ∧
    (list_pkgs true false false wFresh sStale).2 = sStale := by
  decide

/-- C5 witness: the amended cache-hit shape at a concrete input — the
stringified copy for versions_as_list false, the cached object itself
for true, the state untouched either way. -/
theorem c5_cache_hit_shape_witness :
    list_pkgs true false false wFresh sStale =
      ({ val := [("stale", VVal.vl ["9"])], sharesCache := true }, sStale) ∧
    list_pkgs false false false wFresh sStale =
      ({ val := [("stale", VVal.vs "9")], sharesCache := false }, sStale) :=
  ⟨c5_cache_hit_shape wFresh sStale [("stale", ["9"])] true rfl,
   c5_cache_hit_shape wFresh sStale [("stale", ["9"])] false rfl⟩

/-- C6 counterexample: every listing of wFresh reports exactly the
inventory fresh 1, and sStale holds a stale cache stale 9.  Were both
snapshots of the ChangeSet obtained only after an invalidation, as the
claim states, install would read fresh 1 twice, report an empty
ChangeSet and perform two listing invocations.  The code instead
serves the before snapshot from the stale cache: it performs exactly
one listing invocation (nList ends at 1) and reports a non-empty
ChangeSet that mentions the cached-only entry stale. -/
theorem c6_counterexample :
    install "fresh" "jailmode" wFresh sStale =
      (.ok [("stale", VVal.vs "9", VVal.vs ""), ("fresh", VVal.vs "", VVal.vs "1")],
       { cache := some [("fresh", ["1"])], nList := 1, nRun := 1,
         mutLog := [["snap", "install", "--color=never", "--unicode=never",
                     "--jailmode", "fresh"]] }) ∧
    ([("stale", VVal.vs "9", VVal.vs ""), ("fresh", VVal.vs "", VVal.vs "1")] :
      ChangeSet) ≠ [] := by
  exact ⟨by decide, by decide⟩

/-- C6 witness: the amended before-stale, after-fresh protocol at a
concrete input, on the remove side. -/
theorem c6_before_stale_after_fresh_witness :
    remove "gone" "jailmode" wFresh sStale =
      (.ok [("stale", VVal.vs "9", VVal.vs ""), ("fresh", VVal.vs "", VVal.vs "1")],
       { cache := some [("fresh", ["1"])], nList := 1, nRun := 1,
         mutLog := [["snap", "remove", "gone"]] }) :=
  c6_before_stale_after_fresh.2 wFresh sStale [("stale", ["9"])] "gone" "jailmode"
    [("fresh", ["1"])]
    [("stale", VVal.vs "9", VVal.vs ""), ("fresh", VVal.vs "", VVal.vs "1")]
    { retcode := 0, stdout := "", stderr := "" }
    rfl (by decide) (by decide) (by decide) (by decide)

/-- C1 witness: under wConverge a first installed call of foo converges
(it installs and reports the diff), after which the second call — and
likewise a removed call for the absent bar — is Already-Satisfied:
success, empty changes, state untouched. -/
theorem c1_idempotent_second_call_witness :
    installed "foo" "jailmode" wConverge ctx0 =
      (.ok { name := "foo", result := true,
             changes := [("installed", .sub [("foo", VVal.vs "", VVal.vs "1.0")])],
             comment := "" }, c1Ctx) ∧
    installed "foo" "jailmode" wConverge c1Ctx =
      (.ok { name := "foo", result := true, changes := [], comment := "" }, c1Ctx) ∧
    removed "bar" wConverge c1Ctx =
      (.ok { name := "bar", result := true, changes := [], comment := "" }, c1Ctx) :=
  ⟨by decide,
   c1_idempotent_second_call.1 wConverge wConverge ctx0 "foo" "jailmode"
     { name := "foo", result := true,
       changes := [("installed", .sub [("foo", VVal.vs "", VVal.vs "1.0")])],
       comment := "" }
     c1Ctx [("foo", ["1.0"])] (by decide) (by decide) (by decide) (by decide)
     (by decide),
   c1_idempotent_second_call.2 wConverge wConverge c1Ctx "bar"
     { name := "bar", result := true, changes := [], comment := "" }
     c1Ctx [("foo", ["1.0"])] (by decide) (by decide) (by decide) (by decide)
     (by decide)⟩

/-- C2 witness: a failing install under wErrInstall raises the error
with the message list and the non-empty partial-effect ChangeSet as
payload; a succeeding remove under wFresh returns its ChangeSet. -/
theorem c2_unconditional_diff_witness :
    install "foo" "jailmode" wErrInstall ctx0 =
      (.error (.commandExecution installFailMsg
        (some { errors := ["boom"],
                changes := some [("foo", VVal.vs "", VVal.vs "1.0")] })),
       { cache := some [("foo", ["1.0"])], nList := 2, nRun := 1,
         mutLog := [["snap", "install", "--color=never", "--unicode=never",
                     "--jailmode", "foo"]] }) ∧
    remove "fresh" "jailmode" wFresh sStale =
      (.ok [("stale", VVal.vs "9", VVal.vs ""), ("fresh", VVal.vs "", VVal.vs "1")],
       { cache := some [("fresh", ["1"])], nList := 1, nRun := 1,
         mutLog := [["snap", "remove", "fresh"]] }) :=
  ⟨(c2_unconditional_diff.1 wErrInstall ctx0 "foo" "jailmode" _ _ _ _ _
      (by decide) (by decide) rfl rfl rfl rfl rfl).1 (by decide),
   ((c2_unconditional_diff.2 wFresh sStale "fresh" "jailmode" _ _ _ _ _
      (by decide) rfl rfl rfl rfl rfl).2.1 (by decide))⟩

/-- C3 witness: the failing install of wErrInstall is caught by
installed into a failed report carrying the payload diff and the
rendered comment; the failing remove of wErrRemove is caught by
removed likewise (its payload diff is empty because the inventory did
not change). -/
theorem c3_state_catches_operation_error_witness :
    installed "foo" "jailmode" wErrInstall ctx0 =
      (.ok { name := "foo", result := false,
             changes := [("foo", ChVal.pair (VVal.vs "") (VVal.vs "1.0"))],
             comment := "Problem encountered installing package(s). Additional info follows: boom" },
       { cache := some [("foo", ["1.0"])], nList := 2, nRun := 1,
         mutLog := [["snap", "install", "--color=never", "--unicode=never",
                     "--jailmode", "foo"]] }) ∧
    removed "foo" wErrRemove ctx0 =
      (.ok { name := "foo", result := false, changes := [],
             comment := "Problem encountered removing package(s). Additional info follows: rboom" },
       { cache := some [("foo", ["1.0"])], nList := 2, nRun := 1,
         mutLog := [["snap", "remove", "foo"]] }) :=
  ⟨c3_state_catches_operation_error.1 wErrInstall ctx0 "foo" "jailmode"
     (.single (.vs "")) { cache := some [], nList := 1, nRun := 0, mutLog := [] }
     installFailMsg
     (some { errors := ["boom"],
             changes := some [("foo", VVal.vs "", VVal.vs "1.0")] })
     { cache := some [("foo", ["1.0"])], nList := 2, nRun := 1,
       mutLog := [["snap", "install", "--color=never", "--unicode=never",
                   "--jailmode", "foo"]] }
     (by decide) (by decide) (by decide),
   c3_state_catches_operation_error.2 wErrRemove ctx0 "foo"
     (.single (.vs "1.0"))
     { cache := some [("foo", ["1.0"])], nList := 1, nRun := 0, mutLog := [] }
     removeFailMsg (some { errors := ["rboom"], changes := some [] })
     { cache := some [("foo", ["1.0"])], nList := 2, nRun := 1,
       mutLog := [["snap", "remove", "foo"]] }
     (by decide) (by decide) (by decide)⟩

/-- C4 witness: the dash-named calls and the bogus confinement abort
with the validation errors, the state identically unchanged. -/
theorem c4_validation_aborts_early_witness :
    install "-x" "jailmode" wConverge ctx0 =
      (.error (.commandExecution invalidNameMsg none), ctx0) ∧
    remove "-x" "jailmode" wConverge ctx0 =
      (.error (.commandExecution invalidNameMsg none), ctx0) ∧
    install "pkg" "bogus" wConverge ctx0 =
      (.error (.commandExecution invalidConfinementMsg none), ctx0) :=
  ⟨(c4_validation_aborts_early.1 wConverge ctx0 "-x" "jailmode" (by decide)).1,
   (c4_validation_aborts_early.1 wConverge ctx0 "-x" "jailmode" (by decide)).2,
   c4_validation_aborts_early.2 wConverge ctx0 "pkg" "bogus" (by decide)
     (by decide)⟩

/-- C9 witness: a one-field line between two well-formed rows is
skipped and the row before it still contributes its version. -/
theorem c9_parse_resilience_witness :
    parseLines (["Name Version", "a 1"] ++ "onefield" :: ["b 2"]) =
      parseLines (["Name Version", "a 1"] ++ ["b 2"]) ∧
    "1" ∈ (dlookupL (sort_pkglist (parseLines
      (["Name Version", "a 1"] ++ "onefield" :: ["b 2"]))) "a").getD [] :=
  ⟨(c9_parse_resilience ["Name Version", "a 1"] ["b 2"] "onefield"
      (by decide) (by decide)).1,
   (c9_parse_resilience ["Name Version", "a 1"] ["b 2"] "onefield"
      (by decide) (by decide)).2 "a 1" "a" "1" [] (by decide) (by decide)⟩

/-- C10 witness: install rejects the bogus confinement that remove, by
the ignore-confinement theorem, accepts without effect. -/
theorem c10_remove_ignores_confinement_witness :
    install "vlc" "bogus" wConverge ctx0 =
      (.error (.commandExecution invalidConfinementMsg none), ctx0) :=
  c10_remove_ignores_confinement.2.2 wConverge ctx0 "vlc" (by decide)
